import Mathlib

/-!
# ec2-run-instances: the launch loop

A shallow embedding of `ec2-run-instances.go`.  The program parses four flags,
checks that `region` and `launch-template` are set, loads the provider
configuration (registering a constant-delay retryer), and then loops forever:
build a `RunInstancesInput`, submit it, log the outcome, sleep.

Go pointers are `Option`s (`none` is `nil`).  The effects of the program are
recorded as a trace of `Event`s; the provider is an explicit parameter giving
the answer to each successive call.  One `log.Printf` call is one log line.
-/

namespace Ec2RunInstances

/-! ## Data model -/

/-- Go `time.Duration`: a signed count of nanoseconds. -/
abbrev Duration := Int

/-- The four package-level flags, as they stand after `flag.Parse()`. -/
structure Flags where
  /-- Flag `--count`, `-n`: any `int32`; the default is 1. -/
  count : Int
  /-- Flag `--interval`: any duration; the default is 500ms. -/
  interval : Duration
  /-- Flag `--launch-template`; the default is empty. -/
  launchTemplate : String
  /-- Flag `--region`; the default is the value of `AWS_REGION`. -/
  region : String
  deriving DecidableEq, Repr

/-- Go `types.LaunchTemplateSpecification`, the one field the program sets. -/
structure LaunchTemplateSpecification where
  launchTemplateName : Option String
  deriving DecidableEq, Repr

/-- Go `ec2.RunInstancesInput`, the three fields the program sets. -/
structure RunInstancesInput where
  launchTemplate : Option LaunchTemplateSpecification
  minCount : Option Int
  maxCount : Option Int
  deriving DecidableEq, Repr

/-- Go `types.Placement`, the one field the program reads. -/
structure Placement where
  availabilityZone : Option String
  deriving DecidableEq, Repr

/-- Go `types.Instance`, the three fields the program reads.  `InstanceType`
is a string-kinded value; `Placement` and `InstanceId` are pointers. -/
structure Instance where
  instanceType : String
  placement : Option Placement
  instanceId : Option String
  deriving DecidableEq, Repr

/-- Go `ec2.RunInstancesOutput`, the one field the program reads. -/
structure RunInstancesOutput where
  instances : List Instance
  deriving DecidableEq, Repr

/-- A non-nil Go `error` returned by the launch call: an error class and the
text its `Error()` method yields (what `%v` prints). -/
structure LaunchError where
  category : String
  detail : String
  deriving DecidableEq, Repr

/-- The pair `(*ec2.RunInstancesOutput, error)` returned by the launch call. -/
abbrev Outcome := Except LaunchError RunInstancesOutput

/-- The provider client at one call: the answer it gives to a request. -/
abbrev Client := RunInstancesInput → Outcome

/-- The observable effects of the program. -/
inductive Event where
  | usage
  | exit (code : Int)
  | loadConfig (region : String)
  | fatal (line : String)
  | submit (input : RunInstancesInput)
  | log (line : String)
  | sleep (d : Duration)
  | nilDeref
  deriving DecidableEq, Repr

/-- Where control stands at the end of an observed run. -/
inductive Status where
  | running
  | exited (code : Int)
  | crashed
  deriving DecidableEq, Repr

/-- An observed run: the events so far and where control stands. -/
structure Run where
  trace : List Event
  status : Status
  deriving DecidableEq, Repr

/-! ## The program -/

/-- Source `runInstances`: builds the input and hands it to the client.  The
input is returned next to the result so that the submission is observable. -/
def runInstances (cfg : Flags) (client : Client) (launchTemplate : String) :
    RunInstancesInput × Outcome :=
  let input : RunInstancesInput :=
    { launchTemplate := some { launchTemplateName := some launchTemplate }
      minCount := some 1
      maxCount := some cfg.count }
  (input, client input)

/-- The format `"Launched %s instance in %s: %s"`. -/
def formatLaunched (instanceType az instanceId : String) : String :=
  "Launched " ++ instanceType ++ " instance in " ++ az ++ ": " ++ instanceId

/-- The format `"Launch failed: %v"`. -/
def formatFailed (err : LaunchError) : String :=
  "Launch failed: " ++ err.detail

/-- The arguments of the per-instance `log.Printf`, evaluated left to right:
`instance.InstanceType`, `*instance.Placement.AvailabilityZone`,
`*instance.InstanceId`.  `none` is a nil-pointer dereference, which happens
before `log.Printf` is entered. -/
def logInstance (i : Instance) : Option String :=
  match i.placement with
  | none => none
  | some p =>
    match p.availabilityZone with
    | none => none
    | some az =>
      match i.instanceId with
      | none => none
      | some id => some (formatLaunched i.instanceType az id)

/-- The inner `for _, instance := range resp.Instances` loop. -/
def logInstances : List Instance → Run
  | [] => ⟨[], Status.running⟩
  | i :: rest =>
    match logInstance i with
    | none => ⟨[Event.nilDeref], Status.crashed⟩
    | some line =>
      let r := logInstances rest
      ⟨Event.log line :: r.trace, r.status⟩

/-- One pass through the body of the outer `for` loop. -/
def iteration (cfg : Flags) (client : Client) : Run :=
  let call := runInstances cfg client cfg.launchTemplate
  match call.2 with
  | Except.error err =>
    ⟨[Event.submit call.1, Event.log (formatFailed err), Event.sleep cfg.interval],
      Status.running⟩
  | Except.ok resp =>
    let r := logInstances resp.instances
    match r.status with
    | Status.running =>
      ⟨Event.submit call.1 :: (r.trace ++ [Event.sleep cfg.interval]), Status.running⟩
    | s => ⟨Event.submit call.1 :: r.trace, s⟩

/-- The outer `for { ... }` loop, observed while the provider answers the
successive calls with `clients`; `running` at the end means control is back at
the loop head. -/
def loop (cfg : Flags) : List Client → Run
  | [] => ⟨[], Status.running⟩
  | c :: cs =>
    let r := iteration cfg c
    match r.status with
    | Status.running =>
      let r2 := loop cfg cs
      ⟨r.trace ++ r2.trace, r2.status⟩
    | s => ⟨r.trace, s⟩

/-- The function given to `retry.BackoffDelayerFunc`. -/
def backoff (cfg : Flags) (_attempt : Int) (_err : Option LaunchError) :
    Duration × Option LaunchError :=
  (cfg.interval, none)

/-- Source `main`, after `flag.Parse()`.  `loaded` is the result of
`config.LoadDefaultConfig`. -/
def main (cfg : Flags) (loaded : Except String Unit) (clients : List Client) : Run :=
  if cfg.region == "" || cfg.launchTemplate == "" then
    ⟨[Event.usage, Event.exit 1], Status.exited 1⟩
  else
    match loaded with
    | Except.error e =>
      ⟨[Event.loadConfig cfg.region, Event.fatal ("Failed to load config: " ++ e)],
        Status.exited 1⟩
    | Except.ok _ =>
      let r := loop cfg clients
      ⟨Event.loadConfig cfg.region :: r.trace, r.status⟩

/-! ## The registered retryer -/

/-- The retryer `main` registers through `config.WithRetryer`:
`retry.NewStandard` with its backoff replaced, wrapped by
`retry.AddWithMaxAttempts(..., 0)`.  A maximum of 0 attempts is no limit. -/
structure Retryer where
  maxAttempts : Nat
  backoff : Int → Option LaunchError → Duration × Option LaunchError

/-- The value built by the function passed to `config.WithRetryer`. -/
def retryer (cfg : Flags) : Retryer :=
  { maxAttempts := 0, backoff := backoff cfg }

/-- One call of `client.RunInstances` under a retryer.  `retryable` is the
provider library's classification of errors, which the source does not fix;
`answers` are the provider's answers to the successive attempts of the call,
`n` the number of the current attempt.  A retryable error is followed by the
backoff delay and a further attempt unless the attempt limit is reached.  The
result is the delays waited and the answer handed back; `none` when the answers
are used up with the call still retrying. -/
def retrying (r : Retryer) (retryable : LaunchError → Bool) :
    Nat → List Outcome → List Duration × Option Outcome
  | _, [] => ([], none)
  | _, Except.ok resp :: _ => ([], some (Except.ok resp))
  | n, Except.error e :: rest =>
    if retryable e && (r.maxAttempts == 0 || decide (n < r.maxAttempts)) then
      let later := retrying r retryable (n + 1) rest
      ((r.backoff (n : Int) (some e)).1 :: later.1, later.2)
    else ([], some (Except.error e))

/-! ## Observations on traces -/

/-- The requests submitted in a trace, in order. -/
def submitted : List Event → List RunInstancesInput
  | [] => []
  | Event.submit i :: es => i :: submitted es
  | _ :: es => submitted es

/-- The log lines of a trace, in order. -/
def logLines : List Event → List String
  | [] => []
  | Event.log l :: es => l :: logLines es
  | _ :: es => logLines es

/-- The sleeps of a trace, in order. -/
def sleeps : List Event → List Duration
  | [] => []
  | Event.sleep d :: es => d :: sleeps es
  | _ :: es => sleeps es

/-- The process exits of a trace. -/
def exits : List Event → List Int
  | [] => []
  | Event.exit c :: es => c :: exits es
  | _ :: es => exits es

/-- The request of the specification: minimum 1, maximum `count`, the template. -/
def launchRequest (count : Int) (templateName : String) : RunInstancesInput :=
  ⟨some ⟨some templateName⟩, some 1, some count⟩

/-- A request whose two counts are present with `1 ≤ max` and `min ≤ max`. -/
def validCounts (r : RunInstancesInput) : Bool :=
  match r.minCount, r.maxCount with
  | some lo, some hi => decide (1 ≤ hi) && decide (lo ≤ hi)
  | _, _ => false

/-- An instance with placement, availability zone and identifier present. -/
def Instance.present (i : Instance) : Bool :=
  match i.placement with
  | none => false
  | some p => p.availabilityZone.isSome && i.instanceId.isSome

/-- An outcome none of whose instances lacks one of the three values. -/
def wellFormed : Outcome → Bool
  | Except.error _ => true
  | Except.ok resp => resp.instances.all Instance.present

/-- The specification's LaunchedInstance record: three plain strings. -/
structure LaunchedInstance where
  instanceType : String
  availabilityZone : String
  instanceId : String
  deriving DecidableEq, Repr

/-- The provider instance in which the three values of a record are present. -/
def LaunchedInstance.toInstance (l : LaunchedInstance) : Instance :=
  ⟨l.instanceType, some ⟨some l.availabilityZone⟩, some l.instanceId⟩

/-- The log line of a launched instance. -/
def LaunchedInstance.line (l : LaunchedInstance) : String :=
  formatLaunched l.instanceType l.availabilityZone l.instanceId

/-- The specification's LaunchOutcome: a failure, or launched instances. -/
abbrev LaunchOutcome := Except LaunchError (List LaunchedInstance)

/-- The provider outcome of a specification outcome. -/
def LaunchOutcome.toOutcome : LaunchOutcome → Outcome
  | Except.error e => Except.error e
  | Except.ok ls => Except.ok ⟨ls.map LaunchedInstance.toInstance⟩

/-- The log lines the specification asks for after an outcome: one
`Launch failed` line for an error, one line per instance for a success. -/
def LaunchOutcome.lines : LaunchOutcome → List String
  | Except.error e => [formatFailed e]
  | Except.ok ls => ls.map LaunchedInstance.line

/-- The specification's trace of one attempt: submit, log lines, sleep. -/
def attemptTrace (cfg : Flags) (o : LaunchOutcome) : List Event :=
  Event.submit (launchRequest cfg.count cfg.launchTemplate) ::
    (o.lines.map Event.log ++ [Event.sleep cfg.interval])

/-- The specification's trace of successive attempts. -/
def attemptsTrace (cfg : Flags) : List LaunchOutcome → List Event
  | [] => []
  | o :: os => attemptTrace cfg o ++ attemptsTrace cfg os

/-- A line that has `part` as a contiguous piece. -/
def Contains (line part : String) : Prop :=
  ∃ before after : String, line = before ++ part ++ after

/-! ## Scenario of the specification -/

def webFleet : Flags :=
  { count := 2, interval := 10000000, launchTemplate := "web-fleet", region := "us-east-1" }

/-- An authorization failure: an error the launch call returns to the loop. -/
def unauthorized : LaunchError :=
  { category := "UnauthorizedOperation",
    detail := "UnauthorizedOperation: You are not authorized to perform this operation." }

/-- A throttling answer of the provider. -/
def throttling : LaunchError :=
  { category := "RequestLimitExceeded", detail := "RequestLimitExceeded: Request limit exceeded." }

def twoLaunched : List LaunchedInstance :=
  [⟨"p3.2xlarge", "us-east-1a", "i-aaa"⟩, ⟨"p3.2xlarge", "us-east-1b", "i-bbb"⟩]

def noPlacement : Instance := ⟨"p3.2xlarge", none, some "i-ccc"⟩

def noZone : Instance := ⟨"p3.2xlarge", some ⟨none⟩, some "i-ccc"⟩

def noIdentifier : Instance := ⟨"p3.2xlarge", some ⟨some "us-east-1a"⟩, none⟩

/-! ## Lemmas on traces -/

theorem submitted_append (a b : List Event) :
    submitted (a ++ b) = submitted a ++ submitted b := by
  induction a with
  | nil => rfl
  | cons e es ih => cases e <;> simp [submitted, ih]

theorem logLines_append (a b : List Event) :
    logLines (a ++ b) = logLines a ++ logLines b := by
  induction a with
  | nil => rfl
  | cons e es ih => cases e <;> simp [logLines, ih]

theorem sleeps_append (a b : List Event) :
    sleeps (a ++ b) = sleeps a ++ sleeps b := by
  induction a with
  | nil => rfl
  | cons e es ih => cases e <;> simp [sleeps, ih]

theorem exits_append (a b : List Event) :
    exits (a ++ b) = exits a ++ exits b := by
  induction a with
  | nil => rfl
  | cons e es ih => cases e <;> simp [exits, ih]

theorem logLines_map_log (ls : List String) : logLines (ls.map Event.log) = ls := by
  induction ls with
  | nil => rfl
  | cons l ls ih => simp [logLines, ih]

theorem submitted_map_log (ls : List String) : submitted (ls.map Event.log) = [] := by
  induction ls with
  | nil => rfl
  | cons l ls ih => simp [submitted, ih]

theorem sleeps_map_log (ls : List String) : sleeps (ls.map Event.log) = [] := by
  induction ls with
  | nil => rfl
  | cons l ls ih => simp [sleeps, ih]

/-! ## Lemmas on the inner loop -/

theorem logInstance_toInstance (l : LaunchedInstance) :
    logInstance l.toInstance = some l.line := rfl

theorem logInstance_absent (i : Instance) (h : i.present = false) :
    logInstance i = none := by
  obtain ⟨ty, pl, id⟩ := i
  cases pl with
  | none => rfl
  | some p =>
    obtain ⟨az⟩ := p
    cases az with
    | none => rfl
    | some z =>
      cases id with
      | none => rfl
      | some d => simp [Instance.present] at h

theorem logInstance_present (i : Instance) (h : i.present = true) :
    ∃ l : LaunchedInstance, i = l.toInstance := by
  obtain ⟨ty, pl, id⟩ := i
  cases pl with
  | none => simp [Instance.present] at h
  | some p =>
    obtain ⟨az⟩ := p
    cases az with
    | none => simp [Instance.present] at h
    | some z =>
      cases id with
      | none => simp [Instance.present] at h
      | some d => exact ⟨⟨ty, z, d⟩, rfl⟩

theorem present_all (is : List Instance) (h : is.all Instance.present = true) :
    ∃ ls : List LaunchedInstance, is = ls.map LaunchedInstance.toInstance := by
  induction is with
  | nil => exact ⟨[], rfl⟩
  | cons i rest ih =>
    simp only [List.all_cons, Bool.and_eq_true] at h
    obtain ⟨l, hl⟩ := logInstance_present i h.1
    obtain ⟨ls, hls⟩ := ih h.2
    exact ⟨l :: ls, by simp [hl, hls]⟩

theorem wellFormed_toOutcome (o : LaunchOutcome) : wellFormed o.toOutcome = true := by
  cases o with
  | error e => rfl
  | ok ls =>
    simp only [LaunchOutcome.toOutcome, wellFormed, List.all_eq_true, List.mem_map]
    rintro i ⟨l, -, rfl⟩
    rfl

theorem wellFormed_iff (o : Outcome) :
    wellFormed o = true ↔ ∃ lo : LaunchOutcome, o = lo.toOutcome := by
  constructor
  · intro h
    cases o with
    | error e => exact ⟨Except.error e, rfl⟩
    | ok resp =>
      obtain ⟨ls, hls⟩ := present_all resp.instances h
      refine ⟨Except.ok ls, ?_⟩
      obtain ⟨is⟩ := resp
      simp only [LaunchOutcome.toOutcome]
      simp at hls
      rw [hls]
  · rintro ⟨lo, rfl⟩
    exact wellFormed_toOutcome lo

theorem logInstances_launched (ls : List LaunchedInstance) :
    logInstances (ls.map LaunchedInstance.toInstance)
      = ⟨(ls.map LaunchedInstance.line).map Event.log, Status.running⟩ := by
  induction ls with
  | nil => rfl
  | cons l ls ih =>
    simp only [List.map_cons, logInstances, logInstance_toInstance, ih]

theorem logInstances_absent (good : List LaunchedInstance) (bad : Instance)
    (rest : List Instance) (h : bad.present = false) :
    logInstances (good.map LaunchedInstance.toInstance ++ bad :: rest)
      = ⟨(good.map LaunchedInstance.line).map Event.log ++ [Event.nilDeref],
          Status.crashed⟩ := by
  induction good with
  | nil => simp [logInstances, logInstance_absent bad h]
  | cons l ls ih =>
    have ih2 : logInstances ((List.map LaunchedInstance.toInstance ls).append (bad :: rest))
        = ⟨(ls.map LaunchedInstance.line).map Event.log ++ [Event.nilDeref],
            Status.crashed⟩ := ih
    simp only [List.map_cons, List.cons_append, logInstances, logInstance_toInstance, ih2]

theorem logInstances_quiet (is : List Instance) :
    submitted (logInstances is).trace = [] ∧ sleeps (logInstances is).trace = []
      ∧ exits (logInstances is).trace = [] := by
  induction is with
  | nil => exact ⟨rfl, rfl, rfl⟩
  | cons i rest ih =>
    simp only [logInstances]
    cases logInstance i with
    | none => exact ⟨rfl, rfl, rfl⟩
    | some line => simpa [submitted, sleeps, exits] using ih

/-! ## Lemmas on one iteration and on the loop -/

theorem iteration_error (cfg : Flags) (c : Client) (err : LaunchError)
    (h : c (launchRequest cfg.count cfg.launchTemplate) = Except.error err) :
    iteration cfg c
      = ⟨[Event.submit (launchRequest cfg.count cfg.launchTemplate),
          Event.log (formatFailed err), Event.sleep cfg.interval], Status.running⟩ := by
  simp only [launchRequest] at h
  simp only [iteration, runInstances, h, launchRequest]

theorem iteration_launched (cfg : Flags) (c : Client) (ls : List LaunchedInstance)
    (h : c (launchRequest cfg.count cfg.launchTemplate)
      = Except.ok ⟨ls.map LaunchedInstance.toInstance⟩) :
    iteration cfg c
      = ⟨Event.submit (launchRequest cfg.count cfg.launchTemplate) ::
          ((ls.map LaunchedInstance.line).map Event.log ++ [Event.sleep cfg.interval]),
          Status.running⟩ := by
  simp only [launchRequest] at h
  simp only [iteration, runInstances, h, launchRequest, logInstances_launched]

theorem iteration_absent (cfg : Flags) (c : Client) (good : List LaunchedInstance)
    (bad : Instance) (rest : List Instance) (hbad : bad.present = false)
    (h : c (launchRequest cfg.count cfg.launchTemplate)
      = Except.ok ⟨good.map LaunchedInstance.toInstance ++ bad :: rest⟩) :
    iteration cfg c
      = ⟨Event.submit (launchRequest cfg.count cfg.launchTemplate) ::
          ((good.map LaunchedInstance.line).map Event.log ++ [Event.nilDeref]),
          Status.crashed⟩ := by
  simp only [launchRequest] at h
  simp only [iteration, runInstances, h, launchRequest,
    logInstances_absent good bad rest hbad]

theorem iteration_outcome (cfg : Flags) (c : Client) (o : LaunchOutcome)
    (h : c (launchRequest cfg.count cfg.launchTemplate) = o.toOutcome) :
    iteration cfg c = ⟨attemptTrace cfg o, Status.running⟩ := by
  cases o with
  | error e => exact iteration_error cfg c e h
  | ok ls =>
    rw [iteration_launched cfg c ls h]
    rfl

theorem iteration_submitted (cfg : Flags) (c : Client) :
    submitted (iteration cfg c).trace = [launchRequest cfg.count cfg.launchTemplate] := by
  simp only [iteration, runInstances]
  cases c _ with
  | error e => rfl
  | ok resp =>
    have hq := (logInstances_quiet resp.instances).1
    cases hs : (logInstances resp.instances).status <;>
      simp [hs, submitted, submitted_append, hq, launchRequest]

theorem iteration_sleeps (cfg : Flags) (c : Client) :
    sleeps (iteration cfg c).trace
      = List.replicate (sleeps (iteration cfg c).trace).length cfg.interval := by
  simp only [iteration, runInstances]
  cases c _ with
  | error e => rfl
  | ok resp =>
    have hq := (logInstances_quiet resp.instances).2.1
    cases hs : (logInstances resp.instances).status <;>
      simp [hs, sleeps, sleeps_append, hq]

theorem loop_submitted (cfg : Flags) (cs : List Client) :
    submitted (loop cfg cs).trace
      = List.replicate (submitted (loop cfg cs).trace).length
          (launchRequest cfg.count cfg.launchTemplate) := by
  induction cs with
  | nil => rfl
  | cons c cs ih =>
    simp only [loop]
    cases hs : (iteration cfg c).status with
    | running =>
      simp only [submitted_append, iteration_submitted, List.singleton_append,
        List.length_cons, List.replicate_succ]
      rw [← ih]
    | exited n => simp [iteration_submitted]
    | crashed => simp [iteration_submitted]

theorem loop_cons_running (cfg : Flags) (c : Client) (cs : List Client)
    (h : (iteration cfg c).status = Status.running) :
    loop cfg (c :: cs)
      = ⟨(iteration cfg c).trace ++ (loop cfg cs).trace, (loop cfg cs).status⟩ := by
  simp only [loop, h]

theorem loop_outcomes (cfg : Flags) (cs : List Client) (os : List LaunchOutcome)
    (h : cs.map (fun c => c (launchRequest cfg.count cfg.launchTemplate))
      = os.map LaunchOutcome.toOutcome) :
    loop cfg cs = ⟨attemptsTrace cfg os, Status.running⟩ := by
  induction cs generalizing os with
  | nil =>
    cases os with
    | nil => rfl
    | cons o os => simp at h
  | cons c cs ih =>
    cases os with
    | nil => simp at h
    | cons o os =>
      simp only [List.map_cons, List.cons.injEq] at h
      have hi := iteration_outcome cfg c o h.1
      rw [loop_cons_running cfg c cs (by rw [hi]), hi, ih os h.2]
      rfl

theorem main_started (cfg : Flags) (loaded : Except String Unit) (cs : List Client)
    (hr : cfg.region ≠ "") (ht : cfg.launchTemplate ≠ "") :
    main cfg loaded cs =
      match loaded with
      | Except.error e =>
        ⟨[Event.loadConfig cfg.region, Event.fatal ("Failed to load config: " ++ e)],
          Status.exited 1⟩
      | Except.ok _ =>
        ⟨Event.loadConfig cfg.region :: (loop cfg cs).trace, (loop cfg cs).status⟩ := by
  simp [main, hr, ht]

theorem main_submitted (cfg : Flags) (loaded : Except String Unit) (cs : List Client) :
    submitted (main cfg loaded cs).trace
      = List.replicate (submitted (main cfg loaded cs).trace).length
          (launchRequest cfg.count cfg.launchTemplate) := by
  unfold main
  split
  · rfl
  · cases loaded with
    | error e => rfl
    | ok u =>
      simp only [submitted]
      exact loop_submitted cfg cs

theorem iteration_head (cfg : Flags) (c : Client) :
    ∃ tail : List Event, (iteration cfg c).trace
      = Event.submit (launchRequest cfg.count cfg.launchTemplate) :: tail := by
  simp only [iteration, runInstances]
  cases c _ with
  | error e => exact ⟨_, rfl⟩
  | ok resp =>
    cases hs : (logInstances resp.instances).status <;> simp [hs, launchRequest]

theorem loop_head (cfg : Flags) (c : Client) (cs : List Client) :
    ∃ tail : List Event, (loop cfg (c :: cs)).trace
      = Event.submit (launchRequest cfg.count cfg.launchTemplate) :: tail := by
  obtain ⟨t, ht⟩ := iteration_head cfg c
  simp only [loop]
  cases hs : (iteration cfg c).status <;> simp [ht]

theorem loop_append (cfg : Flags) (cs ds : List Client)
    (h : (loop cfg cs).status = Status.running) :
    loop cfg (cs ++ ds)
      = ⟨(loop cfg cs).trace ++ (loop cfg ds).trace, (loop cfg ds).status⟩ := by
  induction cs with
  | nil => rfl
  | cons c cs ih =>
    cases hs : (iteration cfg c).status with
    | running =>
      rw [loop_cons_running cfg c cs hs] at h
      rw [List.cons_append, loop_cons_running cfg c (cs ++ ds) hs,
        loop_cons_running cfg c cs hs, ih h]
      simp
    | exited n => simp [loop, hs] at h
    | crashed => simp [loop, hs] at h

theorem outcomes_of_wellFormed (cfg : Flags) (cs : List Client)
    (h : cs.all (fun c => wellFormed (c (launchRequest cfg.count cfg.launchTemplate)))
      = true) :
    ∃ os : List LaunchOutcome,
      cs.map (fun c => c (launchRequest cfg.count cfg.launchTemplate))
        = os.map LaunchOutcome.toOutcome := by
  induction cs with
  | nil => exact ⟨[], rfl⟩
  | cons c cs ih =>
    simp only [List.all_cons, Bool.and_eq_true] at h
    obtain ⟨o, ho⟩ := (wellFormed_iff _).1 h.1
    obtain ⟨os, hos⟩ := ih h.2
    exact ⟨o :: os, by simp [ho, hos]⟩

theorem attemptsTrace_submitted (cfg : Flags) (os : List LaunchOutcome) :
    (submitted (attemptsTrace cfg os)).length = os.length := by
  induction os with
  | nil => rfl
  | cons o os ih =>
    simp [attemptsTrace, attemptTrace, submitted, submitted_append, submitted_map_log, ih]

theorem attemptsTrace_exits (cfg : Flags) (os : List LaunchOutcome) :
    exits (attemptsTrace cfg os) = [] := by
  induction os with
  | nil => rfl
  | cons o os ih =>
    have hl : ∀ ls : List String, exits (ls.map Event.log) = [] := by
      intro ls
      induction ls with
      | nil => rfl
      | cons l ls ihl => simp [exits, ihl]
    simp [attemptsTrace, attemptTrace, exits, exits_append, hl, ih]

theorem loop_submitted_running (cfg : Flags) (cs : List Client)
    (h : (loop cfg cs).status = Status.running) :
    submitted (loop cfg cs).trace
      = List.replicate cs.length (launchRequest cfg.count cfg.launchTemplate) := by
  induction cs with
  | nil => rfl
  | cons c cs ih =>
    cases hs : (iteration cfg c).status with
    | running =>
      rw [loop_cons_running cfg c cs hs] at h
      rw [loop_cons_running cfg c cs hs]
      simp only [submitted_append, iteration_submitted, ih h, List.length_cons,
        List.replicate_succ, List.singleton_append]
    | exited n => simp [loop, hs] at h
    | crashed => simp [loop, hs] at h

theorem loop_single_submitted (cfg : Flags) (c : Client) :
    submitted (loop cfg [c]).trace = [launchRequest cfg.count cfg.launchTemplate] := by
  simp only [loop]
  cases hs : (iteration cfg c).status <;>
    simp [submitted_append, iteration_submitted, submitted]

/-- Under the registered retryer every delay between two attempts of one call
is the configured interval. -/
theorem retrying_delays (cfg : Flags) (retryable : LaunchError → Bool) (n : Nat)
    (answers : List Outcome) :
    (retrying (retryer cfg) retryable n answers).1
      = List.replicate (retrying (retryer cfg) retryable n answers).1.length
          cfg.interval := by
  induction answers generalizing n with
  | nil => rfl
  | cons a rest ih =>
    cases a with
    | ok resp => rfl
    | error e =>
      simp only [retrying]
      split
      · simp only [List.length_cons, List.replicate_succ]
        rw [← ih (n + 1)]
        rfl
      · rfl

/-- Under the registered retryer, which has no attempt limit, an error the
call hands back is never one the provider library classifies as retryable. -/
theorem retrying_returned (cfg : Flags) (retryable : LaunchError → Bool) (n : Nat)
    (answers : List Outcome) (e : LaunchError)
    (h : (retrying (retryer cfg) retryable n answers).2 = some (Except.error e)) :
    retryable e = false := by
  induction answers generalizing n with
  | nil => simp [retrying] at h
  | cons a rest ih =>
    cases a with
    | ok resp => simp [retrying] at h
    | error e2 =>
      simp only [retrying] at h
      split at h
      · exact ih (n + 1) h
      · rename_i hc
        simp only [Option.some.injEq, Except.error.injEq] at h
        subst h
        simpa [retryer] using hc

/-- With throttling classified as retryable, a call answered by throttling
twice and then a success hands back the success after two delays of 10ms; while
the provider keeps throttling, the call does not hand anything back. -/
theorem retrying_throttling :
    retrying (retryer webFleet) (fun e => e.category == "RequestLimitExceeded") 1
        [Except.error throttling, Except.error throttling,
         Except.ok ⟨twoLaunched.map LaunchedInstance.toInstance⟩]
      = ([10000000, 10000000],
          some (Except.ok ⟨twoLaunched.map LaunchedInstance.toInstance⟩))
      ∧ retrying (retryer webFleet) (fun e => e.category == "RequestLimitExceeded") 1
        [Except.error throttling, Except.error throttling]
      = ([10000000, 10000000], none) :=
  ⟨rfl, rfl⟩

theorem contains_launched (t z i : String) :
    Contains (formatLaunched t z i) t ∧ Contains (formatLaunched t z i) z
      ∧ Contains (formatLaunched t z i) i := by
  refine ⟨⟨"Launched ", " instance in " ++ z ++ ": " ++ i, ?_⟩,
    ⟨"Launched " ++ t ++ " instance in ", ": " ++ i, ?_⟩,
    ⟨"Launched " ++ t ++ " instance in " ++ z ++ ": ", "", ?_⟩⟩
  · simp [formatLaunched, String.append_assoc]
  · simp [formatLaunched, String.append_assoc]
  · simp [formatLaunched, String.append_assoc]

theorem contains_failed (err : LaunchError) : Contains (formatFailed err) err.detail :=
  ⟨"Launch failed: ", "", by simp [formatFailed]⟩

/-! ## The request -/

/-- C1: whatever the configured count (so in particular for every count ≥ 1)
and whatever the template name, the request `runInstances` builds and hands to
the client has minimum count 1, maximum count the configured count and the
template name passed in.  Every loop iteration submits exactly this request,
built from the configured template name, whatever the client answers; after any
earlier attempts, failed or successful, that left the loop running, the next
iteration submits it again, so that a run of `main` has submitted it once per
attempt; and no other request is ever submitted. -/
theorem runInstances_request_fixed (cfg : Flags) (templateName : String) (client : Client)
    (loaded : Except String Unit) (clients earlier : List Client) :
    (runInstances cfg client templateName).1.minCount = some 1
      ∧ (runInstances cfg client templateName).1.maxCount = some cfg.count
      ∧ (runInstances cfg client templateName).1.launchTemplate
          = some ⟨some templateName⟩
      ∧ (runInstances cfg client templateName).2
          = client (runInstances cfg client templateName).1
      ∧ submitted (main cfg loaded clients).trace
          = List.replicate (submitted (main cfg loaded clients).trace).length
              (runInstances cfg client cfg.launchTemplate).1
      ∧ submitted (iteration cfg client).trace
          = [⟨some ⟨some cfg.launchTemplate⟩, some 1, some cfg.count⟩]
      ∧ ((loop cfg earlier).status = Status.running →
          submitted (loop cfg (earlier ++ [client])).trace
            = submitted (loop cfg earlier).trace
              ++ [⟨some ⟨some cfg.launchTemplate⟩, some 1, some cfg.count⟩])
      ∧ (cfg.region ≠ "" → cfg.launchTemplate ≠ "" →
          (loop cfg earlier).status = Status.running →
          submitted (main cfg (Except.ok ()) (earlier ++ [client])).trace
            = List.replicate (earlier.length + 1)
                ⟨some ⟨some cfg.launchTemplate⟩, some 1, some cfg.count⟩) := by
  have hstep : (loop cfg earlier).status = Status.running →
      submitted (loop cfg (earlier ++ [client])).trace
        = submitted (loop cfg earlier).trace
          ++ [launchRequest cfg.count cfg.launchTemplate] := by
    intro h
    rw [loop_append cfg earlier [client] h]
    simp only [submitted_append, loop_single_submitted]
  refine ⟨rfl, rfl, rfl, rfl, main_submitted cfg loaded clients,
    iteration_submitted cfg client, hstep, ?_⟩
  intro hr ht h
  rw [main_started cfg (Except.ok ()) (earlier ++ [client]) hr ht]
  simp only [submitted]
  rw [hstep h, loop_submitted_running cfg earlier h, List.replicate_succ']
  rfl

/-- Witness of C1: after a failed and a successful attempt, the third attempt
submits the same request, the third submission of the run. -/
theorem runInstances_request_fixed_witness :
    submitted (main webFleet (Except.ok ())
        ([fun _ => Except.error unauthorized,
          fun _ => Except.ok ⟨twoLaunched.map LaunchedInstance.toInstance⟩]
          ++ [fun _ => Except.ok ⟨[]⟩])).trace
      = [⟨some ⟨some "web-fleet"⟩, some 1, some 2⟩,
         ⟨some ⟨some "web-fleet"⟩, some 1, some 2⟩,
         ⟨some ⟨some "web-fleet"⟩, some 1, some 2⟩] :=
  (runInstances_request_fixed webFleet "web-fleet" (fun _ => Except.ok ⟨[]⟩)
    (Except.ok ()) []
    [fun _ => Except.error unauthorized,
     fun _ => Except.ok ⟨twoLaunched.map LaunchedInstance.toInstance⟩]).2.2.2.2.2.2.2
    (by decide) (by decide) (by decide)

/-- C8 (counterexample): with `--count 0`, region and template set, the
startup check passes, the loop is entered and the request submitted has
maximum count 0, below its minimum count 1. -/
theorem main_count_zero_submitted :
    submitted (main ⟨0, 500000000, "web-fleet", "us-east-1"⟩ (Except.ok ())
        [fun _ => Except.error
          ⟨"InvalidParameterValue", "InvalidParameterValue: invalid maxCount"⟩]).trace
      = [⟨some ⟨some "web-fleet"⟩, some 1, some 0⟩]
      ∧ validCounts ⟨some ⟨some "web-fleet"⟩, some 1, some 0⟩ = false := by
  decide

/-- C8 (amended): for every configuration that passes the startup check, the
request of every attempt has minimum count 1 and maximum count exactly the
configured count: it is the second event of the run and every request submitted
equals it.  Hence the submitted requests have maximum count ≥ 1, and minimum ≤
maximum, exactly when the configured count is ≥ 1; the startup check puts no
bound on the count. -/
theorem main_counts_valid (cfg : Flags) (c : Client) (rest : List Client)
    (hr : cfg.region ≠ "") (ht : cfg.launchTemplate ≠ "") :
    (runInstances cfg c cfg.launchTemplate).1.minCount = some 1
      ∧ (runInstances cfg c cfg.launchTemplate).1.maxCount = some cfg.count
      ∧ (∃ tail : List Event, (main cfg (Except.ok ()) (c :: rest)).trace
          = Event.loadConfig cfg.region ::
            Event.submit ⟨some ⟨some cfg.launchTemplate⟩, some 1, some cfg.count⟩ :: tail)
      ∧ submitted (main cfg (Except.ok ()) (c :: rest)).trace
          = List.replicate (submitted (main cfg (Except.ok ()) (c :: rest)).trace).length
              ⟨some ⟨some cfg.launchTemplate⟩, some 1, some cfg.count⟩
      ∧ (1 ≤ cfg.count →
          (submitted (main cfg (Except.ok ()) (c :: rest)).trace).all validCounts = true)
      ∧ ((submitted (main cfg (Except.ok ()) (c :: rest)).trace).all validCounts = true
          → 1 ≤ cfg.count) := by
  have hall : ∀ r ∈ submitted (main cfg (Except.ok ()) (c :: rest)).trace,
      r = launchRequest cfg.count cfg.launchTemplate := by
    intro r hmem
    rw [main_submitted cfg (Except.ok ()) (c :: rest)] at hmem
    exact List.eq_of_mem_replicate hmem
  obtain ⟨tail, htail⟩ := loop_head cfg c rest
  have htrace : (main cfg (Except.ok ()) (c :: rest)).trace
      = Event.loadConfig cfg.region ::
        Event.submit (launchRequest cfg.count cfg.launchTemplate) :: tail := by
    rw [main_started cfg (Except.ok ()) (c :: rest) hr ht]
    simp only [htail]
  refine ⟨rfl, rfl, ⟨tail, htrace⟩, main_submitted cfg (Except.ok ()) (c :: rest), ?_, ?_⟩
  · intro hc
    rw [List.all_eq_true]
    intro r hmem
    rw [hall r hmem]
    simp [validCounts, launchRequest, hc]
  · intro hv
    have hmem : launchRequest cfg.count cfg.launchTemplate
        ∈ submitted (main cfg (Except.ok ()) (c :: rest)).trace := by
      rw [htrace]
      simp [submitted]
    have := List.all_eq_true.1 hv _ hmem
    simpa [validCounts, launchRequest] using this

/-- Witness of C8 (amended) on the scenario configuration, count 2. -/
theorem main_counts_valid_witness :
    (submitted (main webFleet (Except.ok ())
        [fun _ => Except.error unauthorized,
         fun _ => Except.ok ⟨twoLaunched.map LaunchedInstance.toInstance⟩]).trace).all
        validCounts = true
      ∧ submitted (main webFleet (Except.ok ())
        [fun _ => Except.error unauthorized,
         fun _ => Except.ok ⟨twoLaunched.map LaunchedInstance.toInstance⟩]).trace
        = [⟨some ⟨some "web-fleet"⟩, some 1, some 2⟩,
           ⟨some ⟨some "web-fleet"⟩, some 1, some 2⟩] :=
  ⟨(main_counts_valid webFleet (fun _ => Except.error unauthorized)
      [fun _ => Except.ok ⟨twoLaunched.map LaunchedInstance.toInstance⟩]
      (by decide) (by decide)).2.2.2.2.1 (by decide),
    by decide⟩

/-! ## Startup -/

/-- C2: `main` prints usage and exits with status 1, with nothing else done,
exactly when region or launch-template is empty; and the first thing it does is
load the provider configuration exactly when both are non-empty, whatever count
and interval are. -/
theorem main_flag_check (cfg : Flags) (loaded : Except String Unit)
    (clients : List Client) :
    (main cfg loaded clients = ⟨[Event.usage, Event.exit 1], Status.exited 1⟩
        ↔ (cfg.region = "" ∨ cfg.launchTemplate = ""))
      ∧ ((main cfg loaded clients).trace.head? = some (Event.loadConfig cfg.region)
        ↔ (cfg.region ≠ "" ∧ cfg.launchTemplate ≠ ""))
      ∧ (exits (main cfg loaded clients).trace = []
        ↔ (cfg.region ≠ "" ∧ cfg.launchTemplate ≠ "")) := by
  by_cases h : cfg.region = "" ∨ cfg.launchTemplate = ""
  · have hm : main cfg loaded clients = ⟨[Event.usage, Event.exit 1], Status.exited 1⟩ := by
      simp only [main]
      rw [if_pos (by simpa using h)]
    have hn : ¬ (cfg.region ≠ "" ∧ cfg.launchTemplate ≠ "") := by
      intro hh
      rcases h with h | h
      · exact hh.1 h
      · exact hh.2 h
    rw [hm]
    simp [h, hn, exits]
  · have hh : cfg.region ≠ "" ∧ cfg.launchTemplate ≠ "" :=
      ⟨fun e => h (Or.inl e), fun e => h (Or.inr e)⟩
    rw [main_started cfg loaded clients hh.1 hh.2]
    cases loaded with
    | error e => simp [h, hh, exits]
    | ok u =>
      obtain ⟨os, hos⟩ : ∃ n, submitted (loop cfg clients).trace
          = List.replicate n (launchRequest cfg.count cfg.launchTemplate) :=
        ⟨_, loop_submitted cfg clients⟩
      have he : exits (loop cfg clients).trace = [] := by
        clear hos
        induction clients with
        | nil => rfl
        | cons c cs ih =>
          have hi : exits (iteration cfg c).trace = [] := by
            simp only [iteration, runInstances]
            cases c _ with
            | error e => rfl
            | ok resp =>
              have hq := (logInstances_quiet resp.instances).2.2
              cases hs : (logInstances resp.instances).status <;>
                simp [hs, exits, exits_append, hq]
          simp only [loop]
          cases hs : (iteration cfg c).status <;> simp [exits_append, hi, ih]
      simp [h, hh, exits, he]

/-! ## The retryer -/

/-- C7: the backoff function returns the configured interval and no error for
every attempt number and every error; the delay does not vary with the attempt
or the error, and it is the value every sleep of the loop is called with. -/
theorem backoff_constant (cfg : Flags) (attempt attempt2 : Int)
    (err err2 : Option LaunchError) (c : Client) :
    backoff cfg attempt err = (cfg.interval, none)
      ∧ backoff cfg attempt err = backoff cfg attempt2 err2
      ∧ sleeps (iteration cfg c).trace
          = List.replicate (sleeps (iteration cfg c).trace).length
              (backoff cfg attempt err).1 :=
  ⟨rfl, rfl, iteration_sleeps cfg c⟩

/-! ## One iteration -/

/-- C3 (counterexample): a successful response with one instance whose
placement is absent yields no log line (n = 1, zero lines): the iteration stops
at the nil dereference. -/
theorem iteration_no_placement_no_line :
    iteration webFleet (fun _ => Except.ok ⟨[noPlacement]⟩)
      = ⟨[Event.submit (launchRequest 2 "web-fleet"), Event.nilDeref], Status.crashed⟩
      ∧ logLines (iteration webFleet (fun _ => Except.ok ⟨[noPlacement]⟩)).trace = []
      ∧ [noPlacement].length = 1 := by
  decide

/-- C3 (amended): for every successful response whose instances all have
placement, availability zone and identifier present, one iteration emits exactly
one log line per instance, in the order of the response, the k-th line being the
`Launched` line of the k-th instance and containing its type, zone and
identifier; with no instances there is no log line at all. -/
theorem iteration_on_success (cfg : Flags) (c : Client) (ls : List LaunchedInstance)
    (h : c (launchRequest cfg.count cfg.launchTemplate)
      = Except.ok ⟨ls.map LaunchedInstance.toInstance⟩) :
    logLines (iteration cfg c).trace
        = ls.map (fun l => formatLaunched l.instanceType l.availabilityZone l.instanceId)
      ∧ (logLines (iteration cfg c).trace).length = ls.length
      ∧ (∀ l ∈ ls,
          Contains (formatLaunched l.instanceType l.availabilityZone l.instanceId)
            l.instanceType
          ∧ Contains (formatLaunched l.instanceType l.availabilityZone l.instanceId)
            l.availabilityZone
          ∧ Contains (formatLaunched l.instanceType l.availabilityZone l.instanceId)
            l.instanceId)
      ∧ (ls = [] → (iteration cfg c).trace
          = [Event.submit (launchRequest cfg.count cfg.launchTemplate),
             Event.sleep cfg.interval])
      ∧ (iteration cfg c).status = Status.running := by
  have hl : logLines (iteration cfg c).trace
      = ls.map (fun l => formatLaunched l.instanceType l.availabilityZone l.instanceId) := by
    rw [iteration_launched cfg c ls h]
    simp only [logLines, logLines_append, logLines_map_log, List.append_nil]
    rfl
  refine ⟨hl, ?_, ?_, ?_, ?_⟩
  · rw [hl, List.length_map]
  · intro l _
    exact contains_launched l.instanceType l.availabilityZone l.instanceId
  · intro he
    subst he
    rw [iteration_launched cfg c [] h]
    rfl
  · rw [iteration_launched cfg c ls h]

/-- Witness of C3 (amended): the two instances of the scenario give two lines in order. -/
theorem iteration_on_success_witness :
    logLines (iteration webFleet
        (fun _ => Except.ok ⟨twoLaunched.map LaunchedInstance.toInstance⟩)).trace
      = ["Launched p3.2xlarge instance in us-east-1a: i-aaa",
         "Launched p3.2xlarge instance in us-east-1b: i-bbb"] :=
  (iteration_on_success webFleet
    (fun _ => Except.ok ⟨twoLaunched.map LaunchedInstance.toInstance⟩) twoLaunched rfl).1

/-- C4: for every error the launch call returns, whatever its category, one
iteration submits the request, emits exactly one log line, the `Launch failed`
line containing the error's detail, emits no per-instance line, sleeps for the
interval, and the loop goes on to submit the next request. -/
theorem iteration_on_error (cfg : Flags) (c next : Client) (rest : List Client)
    (err : LaunchError)
    (h : c (launchRequest cfg.count cfg.launchTemplate) = Except.error err) :
    iteration cfg c
        = ⟨[Event.submit (launchRequest cfg.count cfg.launchTemplate),
            Event.log ("Launch failed: " ++ err.detail), Event.sleep cfg.interval],
            Status.running⟩
      ∧ logLines (iteration cfg c).trace = ["Launch failed: " ++ err.detail]
      ∧ Contains ("Launch failed: " ++ err.detail) err.detail
      ∧ ∃ tail : List Event, (loop cfg (c :: next :: rest)).trace
          = [Event.submit (launchRequest cfg.count cfg.launchTemplate),
             Event.log ("Launch failed: " ++ err.detail), Event.sleep cfg.interval,
             Event.submit (launchRequest cfg.count cfg.launchTemplate)] ++ tail := by
  have hi := iteration_error cfg c err h
  refine ⟨hi, ?_, contains_failed err, ?_⟩
  · rw [hi]
    rfl
  · obtain ⟨tail, ht⟩ := loop_head cfg next rest
    refine ⟨tail, ?_⟩
    rw [loop_cons_running cfg c (next :: rest) (by rw [hi]), hi, ht]
    rfl

/-- Witness of C4: two authorization failures in a row. -/
theorem iteration_on_error_witness :
    (loop webFleet [fun _ => Except.error unauthorized,
        fun _ => Except.error ⟨"AuthFailure", "not authorized"⟩]).trace.take 4
      = [Event.submit (launchRequest 2 "web-fleet"),
         Event.log "Launch failed: UnauthorizedOperation: You are not authorized to perform this operation.",
         Event.sleep 10000000,
         Event.submit (launchRequest 2 "web-fleet")] := by
  obtain ⟨tail, ht⟩ := (iteration_on_error webFleet (fun _ => Except.error unauthorized)
    (fun _ => Except.error ⟨"AuthFailure", "not authorized"⟩) [] unauthorized rfl).2.2.2
  rw [ht]
  rfl

/-- C5 (counterexample): after a successful response with one instance whose
identifier is absent, the iteration performs no sleep. -/
theorem iteration_no_identifier_no_sleep :
    sleeps (iteration webFleet (fun _ => Except.ok ⟨[noIdentifier]⟩)).trace = []
      ∧ (iteration webFleet (fun _ => Except.ok ⟨[noIdentifier]⟩)).status
          = Status.crashed := by
  decide

/-- C5 (amended): for every outcome that is an error or a success whose
instances all have placement, availability zone and identifier present, the
iteration performs exactly one sleep, of the configured interval, as its last
event, after the log lines of the outcome and before the next request is
submitted; the duration is the same for every such outcome. -/
theorem iteration_sleeps_once (cfg : Flags) (c next : Client) (rest : List Client)
    (o : LaunchOutcome)
    (h : c (launchRequest cfg.count cfg.launchTemplate) = o.toOutcome) :
    (iteration cfg c).trace
        = Event.submit (launchRequest cfg.count cfg.launchTemplate) ::
            (o.lines.map Event.log ++ [Event.sleep cfg.interval])
      ∧ sleeps (iteration cfg c).trace = [cfg.interval]
      ∧ ∃ tail : List Event, (loop cfg (c :: next :: rest)).trace
          = Event.submit (launchRequest cfg.count cfg.launchTemplate) ::
              (o.lines.map Event.log ++ [Event.sleep cfg.interval]) ++
            Event.submit (launchRequest cfg.count cfg.launchTemplate) :: tail := by
  have hi := iteration_outcome cfg c o h
  refine ⟨by rw [hi]; rfl, ?_, ?_⟩
  · rw [hi]
    simp [attemptTrace, sleeps, sleeps_append, sleeps_map_log]
  · obtain ⟨tail, ht⟩ := loop_head cfg next rest
    refine ⟨tail, ?_⟩
    rw [loop_cons_running cfg c (next :: rest) (by rw [hi]), hi, ht]
    rfl

/-- Witness of C5 (amended): one sleep of 10ms after an error and after a success. -/
theorem iteration_sleeps_once_witness :
    sleeps (iteration webFleet (fun _ => Except.error unauthorized)).trace = [10000000]
      ∧ sleeps (iteration webFleet
          (fun _ => Except.ok ⟨twoLaunched.map LaunchedInstance.toInstance⟩)).trace
          = [10000000] :=
  ⟨(iteration_sleeps_once webFleet (fun _ => Except.error unauthorized)
      (fun _ => Except.error unauthorized) [] (Except.error unauthorized) rfl).2.1,
    (iteration_sleeps_once webFleet
      (fun _ => Except.ok ⟨twoLaunched.map LaunchedInstance.toInstance⟩)
      (fun _ => Except.error unauthorized) [] (Except.ok twoLaunched) rfl).2.1⟩

/-- C10: logging dereferences placement, availability zone and identifier
without a presence check.  When every instance of a successful response has the
three present, the iteration logs one line per instance, sleeps and completes.
When an instance lacks the placement, the zone or the identifier, and those
before it have all three, the iteration emits the lines of the earlier
instances, then faults on the nil dereference: no line for that instance or the
later ones, no sleep, and the loop does not go on. -/
theorem iteration_nil_dereference (cfg : Flags) (c : Client)
    (good : List LaunchedInstance) (bad : Instance) (later : List Instance)
    (others : List Client) :
    (bad.present = false
        ↔ (bad.placement = none ∨ bad.placement = some ⟨none⟩ ∨ bad.instanceId = none))
      ∧ (c (launchRequest cfg.count cfg.launchTemplate)
            = Except.ok ⟨good.map LaunchedInstance.toInstance⟩ →
          iteration cfg c
            = ⟨Event.submit (launchRequest cfg.count cfg.launchTemplate) ::
                ((good.map LaunchedInstance.line).map Event.log
                  ++ [Event.sleep cfg.interval]), Status.running⟩)
      ∧ (bad.present = false →
          c (launchRequest cfg.count cfg.launchTemplate)
            = Except.ok ⟨good.map LaunchedInstance.toInstance ++ bad :: later⟩ →
          iteration cfg c
              = ⟨Event.submit (launchRequest cfg.count cfg.launchTemplate) ::
                  ((good.map LaunchedInstance.line).map Event.log ++ [Event.nilDeref]),
                  Status.crashed⟩
            ∧ sleeps (iteration cfg c).trace = []
            ∧ loop cfg (c :: others) = iteration cfg c) := by
  refine ⟨?_, iteration_launched cfg c good, ?_⟩
  · obtain ⟨ty, pl, id⟩ := bad
    cases pl with
    | none => simp [Instance.present]
    | some p =>
      obtain ⟨az⟩ := p
      cases az <;> cases id <;> simp [Instance.present]
  · intro hbad h
    have hi := iteration_absent cfg c good bad later hbad h
    refine ⟨hi, ?_, ?_⟩
    · rw [hi]
      simp only [sleeps, sleeps_append, sleeps_map_log, List.append_nil]
    · simp only [loop, hi]

/-- Witness of C10: the two instances of the scenario alone, then followed by an instance without a zone. -/
theorem iteration_nil_dereference_witness :
    iteration webFleet
        (fun _ => Except.ok ⟨twoLaunched.map LaunchedInstance.toInstance⟩)
      = ⟨[Event.submit (launchRequest 2 "web-fleet"),
          Event.log "Launched p3.2xlarge instance in us-east-1a: i-aaa",
          Event.log "Launched p3.2xlarge instance in us-east-1b: i-bbb",
          Event.sleep 10000000], Status.running⟩
      ∧ iteration webFleet (fun _ => Except.ok
          ⟨twoLaunched.map LaunchedInstance.toInstance ++ [noZone, noPlacement]⟩)
        = ⟨[Event.submit (launchRequest 2 "web-fleet"),
            Event.log "Launched p3.2xlarge instance in us-east-1a: i-aaa",
            Event.log "Launched p3.2xlarge instance in us-east-1b: i-bbb",
            Event.nilDeref], Status.crashed⟩ :=
  ⟨(iteration_nil_dereference webFleet
      (fun _ => Except.ok ⟨twoLaunched.map LaunchedInstance.toInstance⟩)
      twoLaunched noZone [] []).2.1 rfl,
    ((iteration_nil_dereference webFleet
      (fun _ => Except.ok
        ⟨twoLaunched.map LaunchedInstance.toInstance ++ [noZone, noPlacement]⟩)
      twoLaunched noZone [noPlacement] []).2.2 rfl rfl).1⟩

/-! ## The loop -/

/-- C6 (counterexample): when the first response holds an instance without an
availability zone, the process stops on the nil dereference; the second attempt
is never issued although the provider had an answer for it. -/
theorem main_no_zone_stops :
    main webFleet (Except.ok ())
        [fun _ => Except.ok ⟨[noZone]⟩, fun _ => Except.error unauthorized]
      = ⟨[Event.loadConfig "us-east-1", Event.submit (launchRequest 2 "web-fleet"),
          Event.nilDeref], Status.crashed⟩
      ∧ (submitted (main webFleet (Except.ok ())
          [fun _ => Except.ok ⟨[noZone]⟩, fun _ => Except.error unauthorized]).trace).length
          = 1 := by
  decide

/-- C6 (amended): once the loop has started (both flags set, configuration
loaded), for every sequence of outcomes each of which is an error or a success
whose instances all have placement, availability zone and identifier present,
the process has not exited after handling them: control is back at the loop
head, one request was submitted per outcome, and whatever the next outcome is
the loop submits one more request. -/
theorem main_never_exits (cfg : Flags) (cs : List Client) (next : Client)
    (hr : cfg.region ≠ "") (ht : cfg.launchTemplate ≠ "")
    (h : cs.all (fun c => wellFormed (c (launchRequest cfg.count cfg.launchTemplate)))
      = true) :
    (main cfg (Except.ok ()) cs).status = Status.running
      ∧ exits (main cfg (Except.ok ()) cs).trace = []
      ∧ (submitted (main cfg (Except.ok ()) cs).trace).length = cs.length
      ∧ (submitted (main cfg (Except.ok ()) (cs ++ [next])).trace).length = cs.length + 1
      ∧ ∃ tail : List Event, (main cfg (Except.ok ()) (cs ++ [next])).trace
          = (main cfg (Except.ok ()) cs).trace
            ++ Event.submit (launchRequest cfg.count cfg.launchTemplate) :: tail := by
  obtain ⟨os, hos⟩ := outcomes_of_wellFormed cfg cs h
  have hl := loop_outcomes cfg cs os hos
  have hlen : os.length = cs.length := by
    have := congrArg List.length hos
    simpa using this.symm
  have hm : main cfg (Except.ok ()) cs
      = ⟨Event.loadConfig cfg.region :: attemptsTrace cfg os, Status.running⟩ := by
    rw [main_started cfg (Except.ok ()) cs hr ht, hl]
  have hm2 : main cfg (Except.ok ()) (cs ++ [next])
      = ⟨Event.loadConfig cfg.region :: (attemptsTrace cfg os ++ (loop cfg [next]).trace),
          (loop cfg [next]).status⟩ := by
    rw [main_started cfg (Except.ok ()) (cs ++ [next]) hr ht,
      loop_append cfg cs [next] (by rw [hl]), hl]
  have hn : (submitted (loop cfg [next]).trace).length = 1 := by
    simp only [loop]
    cases hs : (iteration cfg next).status <;> simp [submitted_append, iteration_submitted, submitted]
  refine ⟨by rw [hm], ?_, ?_, ?_, ?_⟩
  · rw [hm]
    simp [exits, attemptsTrace_exits]
  · rw [hm]
    simp [submitted, attemptsTrace_submitted, hlen]
  · rw [hm2]
    simp [submitted, submitted_append, attemptsTrace_submitted, hlen, hn]
  · obtain ⟨tail, htail⟩ := loop_head cfg next []
    refine ⟨tail, ?_⟩
    rw [hm2, hm, htail]
    rfl

/-- Witness of C6 (amended): an error, two instances, an empty success, then a fourth attempt. -/
theorem main_never_exits_witness :
    (main webFleet (Except.ok ())
        [fun _ => Except.error unauthorized,
         fun _ => Except.ok ⟨twoLaunched.map LaunchedInstance.toInstance⟩,
         fun _ => Except.ok ⟨[]⟩]).status = Status.running
      ∧ (submitted (main webFleet (Except.ok ())
          ([fun _ => Except.error unauthorized,
            fun _ => Except.ok ⟨twoLaunched.map LaunchedInstance.toInstance⟩,
            fun _ => Except.ok ⟨[]⟩] ++ [fun _ => Except.error unauthorized])).trace).length
          = 4 :=
  ⟨(main_never_exits webFleet _ (fun _ => Except.error unauthorized)
      (by decide) (by decide) (by decide)).1,
    (main_never_exits webFleet
      [fun _ => Except.error unauthorized,
       fun _ => Except.ok ⟨twoLaunched.map LaunchedInstance.toInstance⟩,
       fun _ => Except.ok ⟨[]⟩] (fun _ => Except.error unauthorized)
      (by decide) (by decide) (by decide)).2.2.2.1⟩

/-- C9 (counterexample): outcomes [authorization error, success with `i-aaa` in
`us-east-1a` and `i-bbb` without an availability zone]: the second iteration
ends on the nil dereference after the line of `i-aaa`, with no line for `i-bbb`
and no second sleep. -/
theorem main_trace_zoneless :
    main webFleet (Except.ok ())
        [fun _ => Except.error unauthorized,
         fun _ => Except.ok ⟨[⟨"p3.2xlarge", some ⟨some "us-east-1a"⟩, some "i-aaa"⟩,
                             ⟨"p3.2xlarge", some ⟨none⟩, some "i-bbb"⟩]⟩]
      = ⟨[Event.loadConfig "us-east-1",
          Event.submit (launchRequest 2 "web-fleet"),
          Event.log "Launch failed: UnauthorizedOperation: You are not authorized to perform this operation.",
          Event.sleep 10000000,
          Event.submit (launchRequest 2 "web-fleet"),
          Event.log "Launched p3.2xlarge instance in us-east-1a: i-aaa",
          Event.nilDeref], Status.crashed⟩ := by
  decide

/-- C9 (amended): for every finite sequence of outcomes of the launch call, each
of which is an error the call hands back or a success whose instances all have
placement, availability zone and identifier present, the trace of the loop over these outcomes is the
concatenation, in order, of: one submission of the request (minimum 1, maximum
count, template name), the log lines of the outcome (one `Launch failed` line
for an error, one `Launched` line per instance in order for a success), one
sleep of the interval; and control is back at the loop head. -/
theorem loop_trace (cfg : Flags) (cs : List Client) (os : List LaunchOutcome)
    (hr : cfg.region ≠ "") (ht : cfg.launchTemplate ≠ "")
    (h : cs.map (fun c => c (launchRequest cfg.count cfg.launchTemplate))
      = os.map LaunchOutcome.toOutcome) :
    loop cfg cs = ⟨attemptsTrace cfg os, Status.running⟩
      ∧ main cfg (Except.ok ()) cs
          = ⟨Event.loadConfig cfg.region :: attemptsTrace cfg os, Status.running⟩ := by
  have hl := loop_outcomes cfg cs os h
  refine ⟨hl, ?_⟩
  rw [main_started cfg (Except.ok ()) cs hr ht, hl]

/-- Witness of C9 (amended): the scenario of the specification, the first call
failing with an authorization error, which the call hands back to the loop. -/
theorem loop_trace_witness :
    loop webFleet
        [fun _ => Except.error unauthorized,
         fun _ => Except.ok ⟨[⟨"p3.2xlarge", some ⟨some "us-east-1a"⟩, some "i-aaa"⟩,
                             ⟨"p3.2xlarge", some ⟨some "us-east-1b"⟩, some "i-bbb"⟩]⟩]
      = ⟨[Event.submit ⟨some ⟨some "web-fleet"⟩, some 1, some 2⟩,
          Event.log "Launch failed: UnauthorizedOperation: You are not authorized to perform this operation.",
          Event.sleep 10000000,
          Event.submit ⟨some ⟨some "web-fleet"⟩, some 1, some 2⟩,
          Event.log "Launched p3.2xlarge instance in us-east-1a: i-aaa",
          Event.log "Launched p3.2xlarge instance in us-east-1b: i-bbb",
          Event.sleep 10000000], Status.running⟩ :=
  (loop_trace webFleet
    [fun _ => Except.error unauthorized,
     fun _ => Except.ok ⟨[⟨"p3.2xlarge", some ⟨some "us-east-1a"⟩, some "i-aaa"⟩,
                         ⟨"p3.2xlarge", some ⟨some "us-east-1b"⟩, some "i-bbb"⟩]⟩]
    [Except.error unauthorized, Except.ok twoLaunched]
    (by decide) (by decide) rfl).1

end Ec2RunInstances
